import Mathlib

/-!
Verification of the STM32L0 Wi-Fi driver core against its specification.

The definitions below are shallow embeddings of the C sources:
* `Src/main.c`   — the table-driven workflow state machine (`server_update`,
  `state_table`, the `FSM_*` handlers) and the main wake/sleep cycle;
* `Src/wifi.c`   — the command/response transaction engine (`send_command`)
  and its wrappers (`WiFi_check`, ...);
* `Src/rtc.c`    — the wake scheduler (`RTC_set_alarm` and its pure
  time-of-day computation) and the BCD conversion helpers;
* `Src/nvic.c`   — the interrupt-fed receive ring buffer (`USART1_IRQHandler`).

Machine integers are modelled as `Nat`/`Int` with explicit `% 256` (uint8_t
casts) where a truncation can actually occur.  External inputs (the modem's
answers, the tick counter, the bytes arriving on the UART) are passed as
explicit function parameters, turning each stateful C function into a pure
Lean function of its environment.
-/

namespace WifiDriver

/-! ### Workflow state machine (`Src/main.c`) -/

/-- The `#define MAX_RETRIES 5` of `Src/main.c`. -/
def MAX_RETRIES : Nat := 5

/-- Modelled from the spec: `server_update` compares the retry counter against
`MAXIMUM_RETRIES`, a constant whose defining header (`uart.h`) is not part of
the repository snapshot.  The spec identifies it with the configured retry
maximum `MAX_RETRIES` ("reaching the configured maximum", "exactly
`MAX_RETRIES` total failures"), and `Src/main.c` defines `MAX_RETRIES 5`. -/
def MAXIMUM_RETRIES : Nat := MAX_RETRIES

/-- The `states` enumeration of `Src/main.c` (values 0..7). -/
def WIFI_INIT : Nat := 0
def READ_TIME : Nat := 1
def OPEN_CONNECTION : Nat := 2
def SEND_DATA : Nat := 3
def RECEIVE_DATA : Nat := 4
def CLOSE_CONNECTION : Nat := 5
def POWER_DOWN : Nat := 6
def STOP : Nat := 7

/-- One row of `state_table`: the success and failure transitions.  The
handler function pointer is modelled separately, as an oracle giving each
invocation's result (the handlers' results depend on the external modem). -/
structure stateflowType where
  next_state_on_success : Nat
  next_state_on_failure : Nat
deriving DecidableEq, Repr

/-- The `state_table` of `Src/main.c`, rows for states 0..6 (`STOP` has no row). -/
def state_table : List stateflowType :=
  [ ⟨READ_TIME,        POWER_DOWN⟩        -- WIFI_INIT
  , ⟨OPEN_CONNECTION,  WIFI_INIT⟩         -- READ_TIME
  , ⟨SEND_DATA,        WIFI_INIT⟩         -- OPEN_CONNECTION
  , ⟨RECEIVE_DATA,     CLOSE_CONNECTION⟩  -- SEND_DATA
  , ⟨CLOSE_CONNECTION, SEND_DATA⟩         -- RECEIVE_DATA
  , ⟨POWER_DOWN,       OPEN_CONNECTION⟩   -- CLOSE_CONNECTION
  , ⟨STOP,             WIFI_INIT⟩ ]       -- POWER_DOWN

/-- The loop state of `server_update`: the current FSM state, the retry
counter, how many handler invocations have been made so far, and whether the
`break` on the retry budget has fired. -/
structure FsmSt where
  current_state : Nat
  retries : Nat
  calls : Nat
  stopped : Bool
deriving DecidableEq, Repr

/-- Initial loop state of `server_update`: `current_state = WIFI_INIT`,
`retries = 0`. -/
def fsm_init : FsmSt := ⟨WIFI_INIT, 0, 0, false⟩

/-- One iteration of the `do`-loop body of `server_update` (`Src/main.c`
lines 405-435).  `results i` is the value returned by the `i`-th handler
invocation (each `FSM_*` handler returns `0` on success and `-1` on failure).
Faithful to the source order: the handler is executed first, then the retry
budget is compared with `MAXIMUM_RETRIES` (breaking the loop), and only then
is the transition applied and, on failure, the counter incremented. -/
def fsm_body (results : Nat → Int) (s : FsmSt) : FsmSt :=
  let result := results s.calls
  let s1 : FsmSt := { s with calls := s.calls + 1 }
  if s1.retries = MAXIMUM_RETRIES then
    { s1 with stopped := true }
  else if result = -1 then
    { s1 with current_state := (state_table.getD s1.current_state ⟨0, 0⟩).next_state_on_failure,
              retries := s1.retries + 1 }
  else if result = 0 then
    { s1 with current_state := (state_table.getD s1.current_state ⟨0, 0⟩).next_state_on_success }
  else s1

/-- Whether the `do ... while (current_state != STOP)` loop (together with the
retry-budget `break`) has terminated in state `s`. -/
def fsm_halted (s : FsmSt) : Bool :=
  s.stopped || s.current_state = STOP

/-- Fuelled execution of the `server_update` loop: runs `fsm_body` until the
loop terminates or the fuel runs out.  Starting from `fsm_init` the guard is
initially false, so this agrees with the `do`-`while` of the source. -/
def fsm_run (results : Nat → Int) : Nat → FsmSt → FsmSt
  | 0, s => s
  | fuel + 1, s => if fsm_halted s then s else fsm_run results fuel (fsm_body results s)

/-- The list of states at which `server_update` dispatches a handler (indexes
into `state_table`), in execution order. -/
def fsm_dispatches (results : Nat → Int) : Nat → FsmSt → List Nat
  | 0, _ => []
  | fuel + 1, s =>
    if fsm_halted s then []
    else s.current_state :: fsm_dispatches results fuel (fsm_body results s)

lemma fsm_run_halted (results : Nat → Int) (n : Nat) (s : FsmSt)
    (h : fsm_halted s = true) : fsm_run results n s = s := by
  cases n with
  | zero => rfl
  | succ n => simp [fsm_run, h]

lemma fsm_dispatches_halted (results : Nat → Int) (n : Nat) (s : FsmSt)
    (h : fsm_halted s = true) : fsm_dispatches results n s = [] := by
  cases n with
  | zero => rfl
  | succ n => simp [fsm_dispatches, h]

lemma fsm_run_add (results : Nat → Int) (a b : Nat) (s : FsmSt) :
    fsm_run results (a + b) s = fsm_run results b (fsm_run results a s) := by
  induction a generalizing s with
  | zero => simp [fsm_run]
  | succ a ih =>
    rw [Nat.succ_add]
    by_cases h : fsm_halted s
    · rw [fsm_run, if_pos h, fsm_run, if_pos h, fsm_run_halted results b s h]
    · rw [fsm_run, if_neg h, fsm_run, if_neg h, ih]

lemma fsm_dispatches_add (results : Nat → Int) (a b : Nat) (s : FsmSt) :
    fsm_dispatches results (a + b) s =
      fsm_dispatches results a s ++ fsm_dispatches results b (fsm_run results a s) := by
  induction a generalizing s with
  | zero => simp [fsm_dispatches, fsm_run]
  | succ a ih =>
    rw [Nat.succ_add]
    by_cases h : fsm_halted s
    · rw [fsm_dispatches, if_pos h, fsm_dispatches, if_pos h,
        fsm_run_halted results (a + 1) s h, fsm_dispatches_halted results b s h]
      rfl
    · rw [fsm_dispatches, if_neg h, fsm_dispatches, if_neg h, fsm_run, if_neg h, ih]
      rfl

/-! ### Transaction engine (`Src/wifi.c`, `send_command`) -/

/-- The `WiFi_res` enumeration of `Inc/wifi.h`: `WIFI_OK = 0`,
`WIFI_FAIL = 1`, `WIFI_TIMEOUT = 2`. -/
def WIFI_OK : Int := 0
def WIFI_FAIL : Int := 1
def WIFI_TIMEOUT : Int := 2

/-- C `strstr`: the first index of `hay` at which `needle` occurs as a
contiguous substring (`some 0` for the empty needle), `none` if absent. -/
def strstr_idx (hay needle : List Char) : Option Nat :=
  match hay with
  | [] => if needle = [] then some 0 else none
  | _ :: t => if needle.isPrefixOf hay then some 0 else (strstr_idx t needle).map (· + 1)

/-- Result of one `send_command` transaction: the returned `WiFi_res_t`
status, the number of variadic output slots written by `vsscanf` (`0` means
every output slot is left untouched), and the index of the polling iteration
at which the loop stopped. -/
structure SendResult where
  response : Int
  slots : Nat
  iters : Nat
deriving DecidableEq, Repr

/-- The polling loop of `send_command` (`Src/wifi.c` lines 62-101), fuelled.
`ticks i` is the `get_tick()` value observed at the `i`-th iteration's timeout
check and `bufs i` the contents of `uart_receive_buffer` scanned at that
iteration (the buffer is filled asynchronously by the UART interrupt).
Faithful to the source order: on each iteration the timeout
(`get_tick() - start_time >= delay`) is checked first and returns
`WIFI_TIMEOUT`; only then is the buffer scanned for `exp_end`, returning
`WIFI_OK`.  Returns `none` when the fuel is exhausted with the loop still
polling. -/
def send_command_loop (exp_end : List Char) (delay start : Nat)
    (ticks : Nat → Nat) (bufs : Nat → List Char) : Nat → Nat → Option (Nat × Int)
  | 0, _ => none
  | fuel + 1, i =>
    if delay ≤ ticks i - start then some (i, WIFI_TIMEOUT)
    else if (strstr_idx (bufs i) exp_end).isSome then some (i, WIFI_OK)
    else send_command_loop exp_end delay start ticks bufs fuel (i + 1)

/-- The optional-parsing step of `send_command` (`Src/wifi.c` lines 82-97):
executed only when both `exp` and `exp_parse` are non-NULL; `strstr` locates
`exp` inside the captured text, and only on a hit is `vsscanf` run on the
text after the match — `vsscanf_slots` abstracts that call, giving the number
of variadic output slots it fills.  When `exp` is absent no slot is ever
written. -/
def parse_slots (exp : Option (List Char)) (has_exp_parse : Bool)
    (vsscanf_slots : List Char → Nat) (captured : List Char) : Nat :=
  match exp, has_exp_parse with
  | some e, true =>
    match strstr_idx captured e with
    | some k => vsscanf_slots (captured.drop (k + e.length))
    | none => 0
  | _, _ => 0

/-- The function `send_command` (`Src/wifi.c` lines 38-115).  `exp` is the `exp` argument
(`none` models a NULL pointer), `has_exp_parse` whether `exp_parse` is
non-NULL, and `vsscanf_slots` abstracts the `vsscanf` call: given the text
after the matched `exp`, it yields how many of the variadic output slots the
scan fills (a pattern matching fewer convertible tokens fills fewer slots).
`num_of_exp` is carried but — exactly as in the source — never used.  On a
terminal-token match the captured text is the scanned buffer (the `strncpy`
into `response_buffer` copies it up to the missing `SIZE_OF_INCOMING_DATA-1`
bound, which is the size of the scanned buffer itself); if `exp` is absent
from the captured text, `vsscanf` is never called and no slot is written. -/
def send_command (exp : Option (List Char)) (has_exp_parse : Bool)
    (exp_end : List Char) (num_of_exp : Nat) (delay : Nat)
    (vsscanf_slots : List Char → Nat) (start : Nat)
    (ticks : Nat → Nat) (bufs : Nat → List Char) (fuel : Nat) : Option SendResult :=
  match send_command_loop exp_end delay start ticks bufs fuel 0 with
  | none => none
  | some (i, r) =>
    if r = WIFI_OK then
      some ⟨WIFI_OK, parse_slots exp has_exp_parse vsscanf_slots (bufs i), i⟩
    else some ⟨r, 0, i⟩

/-- The wrapper `WiFi_check` (`Src/wifi.c` lines 605-620) reduced to its result mapping:
any non-`WIFI_OK` result of `send_command("AT", ...)` is collapsed to
`WIFI_FAIL`. -/
def WiFi_check_res (r : Int) : Int :=
  if r ≠ WIFI_OK then WIFI_FAIL else WIFI_OK

/-! ### Wake scheduler (`Src/rtc.c`) -/

/-- The helper `_RTC_convert_bin2bcd` (`Src/rtc.c` line 184): `((value/10) << 4) |
(value % 10)` cast to `uint8_t`. -/
def RTC_convert_bin2bcd (value : Nat) : Nat :=
  (value / 10 * 16 + value % 10) % 256

/-- The helper `_RTC_convert_bcd2bin` (`Src/rtc.c` line 196): high nibble times ten plus
low nibble of a `uint8_t`. -/
def RTC_convert_bcd2bin (value : Nat) : Nat :=
  (value % 256) / 16 * 10 + value % 16

/-- The pure time computation of `RTC_set_alarm` (`Src/rtc.c` lines 316-356):
decompose `total_seconds` into h/m/s, add component-wise to the current
(binary) time, then propagate the seconds and minutes carries and wrap the
hours past 24, each by a single conditional subtraction.  The alarm fields
are `uint8_t` in the source, so each assignment truncates modulo 256.
Returns the (hour, minute, second) triple. -/
def next_alarm (ch cm cs total_seconds : Nat) : Nat × Nat × Nat :=
  let added_hours := total_seconds / 3600
  let added_minutes := total_seconds % 3600 / 60
  let added_seconds := total_seconds % 60
  let alarm_seconds := (cs + added_seconds) % 256
  let alarm_minutes := (cm + added_minutes) % 256
  let alarm_hours := (ch + added_hours) % 256
  let alarm_seconds1 := if 60 ≤ alarm_seconds then alarm_seconds - 60 else alarm_seconds
  let alarm_minutes1 := if 60 ≤ alarm_seconds then (alarm_minutes + 1) % 256 else alarm_minutes
  let alarm_minutes2 := if 60 ≤ alarm_minutes1 then alarm_minutes1 - 60 else alarm_minutes1
  let alarm_hours1 := if 60 ≤ alarm_minutes1 then (alarm_hours + 1) % 256 else alarm_hours
  let alarm_hours2 := if 24 ≤ alarm_hours1 then alarm_hours1 - 24 else alarm_hours1
  (alarm_hours2, alarm_minutes2, alarm_seconds1)

/-- The computation `next_alarm` on a packed (hour, minute, second) triple. -/
def next_alarm_hms (t : Nat × Nat × Nat) (d : Nat) : Nat × Nat × Nat :=
  next_alarm t.1 t.2.1 t.2.2 d

/-- Outcome of `RTC_set_alarm`: the returned status and, when the alarm was
armed, the BCD (hour, minute, second) written into `RTC->ALRMAR`. -/
structure RtcAlarmOutcome where
  status : Int
  armed : Option (Nat × Nat × Nat)
deriving DecidableEq, Repr

/-- The function `RTC_set_alarm` (`Src/rtc.c` lines 292-393).  `alraw_ready` says whether
the wait for the `ALRAWF` writable window succeeds before the 200000-step
timeout expires; when it does not, the function returns `-1` without arming
anything.  Otherwise the current BCD time registers (`bh`, `bm`, `bs`) are
converted to binary, the alarm time is computed by `next_alarm`, re-encoded
to BCD, armed, and `0` is returned. -/
def RTC_set_alarm (alraw_ready : Bool) (bh bm bs : Nat) (total_seconds : Nat) :
    RtcAlarmOutcome :=
  if alraw_ready = false then ⟨-1, none⟩
  else
    let t := next_alarm (RTC_convert_bcd2bin bh) (RTC_convert_bcd2bin bm)
      (RTC_convert_bcd2bin bs) total_seconds
    ⟨0, some (RTC_convert_bin2bcd t.1, RTC_convert_bin2bcd t.2.1, RTC_convert_bin2bcd t.2.2)⟩

/-! ### Main wake/sleep cycle (`Src/main.c`, `main` and `FSM_power_down`) -/

/-- The `#define SLEEP_TIME 1800` of `Src/main.c`. -/
def SLEEP_TIME : Nat := 1800

/-- The handler `FSM_power_down` (`Src/main.c` lines 596-611) as a function of the result
of its single `WiFi_power_down()` call: it returns `-1` iff that call did not
return `0`.  `RTC_set_alarm` is not consulted by this handler. -/
def FSM_power_down (wifi_power_down_result : Int) : Int :=
  if wifi_power_down_result ≠ 0 then -1 else 0

/-- One body iteration of the `while(1)` loop of `main` (`Src/main.c` lines
137-164), restricted to the parts the spec talks about: the workflow run
(`server_update`) followed by `RTC_set_alarm(SLEEP_TIME)`.  The source
discards `RTC_set_alarm`'s return value — the statement stands alone — so the
cycle record simply carries both outcomes side by side. -/
structure CycleResult where
  fsm : FsmSt
  alarm : RtcAlarmOutcome
deriving DecidableEq, Repr

def main_cycle (results : Nat → Int) (fuel : Nat) (alraw_ready : Bool)
    (bh bm bs : Nat) : CycleResult :=
  { fsm := fsm_run results fuel fsm_init
  , alarm := RTC_set_alarm alraw_ready bh bm bs SLEEP_TIME }

/-! ### Receive ring buffer (`Src/nvic.c`, `USART1_IRQHandler`) -/

/-- The receive buffer shared with the UART interrupt: the byte store
(modelled as a total function on positions; only positions below the capacity
are ever read or written) and the write cursor `uart_receive_index`. -/
structure RxBuf where
  data : Nat → Nat
  idx : Nat

/-- One execution of the RXNE branch of `USART1_IRQHandler` (`Src/nvic.c`
lines 21-32) delivering byte `b`: store `b` at the write cursor, then advance
the cursor modulo the capacity.  The capacity `cap` stands for
`SIZE_OF_INCOMING_DATA`, whose defining header (`uart.h`) is not in the
repository snapshot; the spec only requires it to be a fixed positive
buffer size, so it is kept as a parameter. -/
def push_byte (cap : Nat) (b : Nat) (s : RxBuf) : RxBuf :=
  { data := fun p => if p = s.idx then b else s.data p
  , idx := (s.idx + 1) % cap }

/-- Delivering a whole byte sequence to the interrupt handler, oldest first. -/
def push_bytes (cap : Nat) (bs : List Nat) (s : RxBuf) : RxBuf :=
  bs.foldl (fun s b => push_byte cap b s) s

/-- The buffer as `send_command` resets it: zeroed, cursor at 0. -/
def rxbuf_cleared : RxBuf := ⟨fun _ => 0, 0⟩

/-! ### Lemmas about the workflow state machine -/

lemma fsm_body_all_fail_state (s : FsmSt)
    (hs : s.current_state = WIFI_INIT ∨ s.current_state = POWER_DOWN) :
    (fsm_body (fun _ => -1) s).current_state = WIFI_INIT ∨
      (fsm_body (fun _ => -1) s).current_state = POWER_DOWN := by
  rcases hs with h | h <;>
    simp only [fsm_body, h] <;>
    split_ifs <;>
    simp [state_table, WIFI_INIT, POWER_DOWN]

lemma fsm_run_all_fail_state (fuel : Nat) (s : FsmSt)
    (hs : s.current_state = WIFI_INIT ∨ s.current_state = POWER_DOWN) :
    (fsm_run (fun _ => -1) fuel s).current_state = WIFI_INIT ∨
      (fsm_run (fun _ => -1) fuel s).current_state = POWER_DOWN := by
  induction fuel generalizing s with
  | zero => exact hs
  | succ fuel ih =>
    rw [fsm_run]
    by_cases h : fsm_halted s
    · rw [if_pos h]; exact hs
    · rw [if_neg h]; exact ih _ (fsm_body_all_fail_state s hs)

lemma state_table_next_le (c : Nat) (hc : c < 7) :
    (state_table.getD c ⟨0, 0⟩).next_state_on_success ≤ 7 ∧
      (state_table.getD c ⟨0, 0⟩).next_state_on_failure ≤ 7 := by
  interval_cases c <;> decide

lemma fsm_body_state_le (results : Nat → Int) (s : FsmSt)
    (hs : s.current_state < 7) : (fsm_body results s).current_state ≤ 7 := by
  simp only [fsm_body]
  split_ifs
  · exact Nat.le_of_lt hs
  · exact (state_table_next_le s.current_state hs).2
  · exact (state_table_next_le s.current_state hs).1
  · exact Nat.le_of_lt hs

lemma fsm_dispatches_lt (results : Nat → Int) (fuel : Nat) (s : FsmSt)
    (hs : s.current_state ≤ 7) :
    ∀ c ∈ fsm_dispatches results fuel s, c < 7 := by
  induction fuel generalizing s with
  | zero => intro c hc; simp [fsm_dispatches] at hc
  | succ fuel ih =>
    intro c hc
    rw [fsm_dispatches] at hc
    by_cases h : fsm_halted s
    · rw [if_pos h] at hc; simp at hc
    · rw [if_neg h] at hc
      have hne : s.current_state ≠ 7 := by
        simp only [fsm_halted, STOP, Bool.or_eq_true, decide_eq_true_eq] at h
        exact fun hcontra => h (Or.inr hcontra)
      have hlt : s.current_state < 7 := Nat.lt_of_le_of_ne hs hne
      rcases List.mem_cons.mp hc with rfl | hmem
      · exact hlt
      · exact ih (fsm_body results s) (fsm_body_state_le results s hlt) c hmem

/-! ### Claims about the workflow state machine -/

/-- C7: if every handler invocation succeeds (returns `0`), `server_update`
starting at `ConnectWifi` dispatches the seven states in order `ConnectWifi`,
`SyncTime`, `OpenConnection`, `SendData`, `ReceiveData`, `CloseConnection`,
`PowerDown` and terminates in `Stop` with the retry counter still `0` (and
without the retry-budget `break` ever firing). -/
theorem server_update_all_success (results : Nat → Int) (h : ∀ i, results i = 0) :
    ∀ fuel, 7 ≤ fuel →
      fsm_dispatches results fuel fsm_init =
        [WIFI_INIT, READ_TIME, OPEN_CONNECTION, SEND_DATA, RECEIVE_DATA,
          CLOSE_CONNECTION, POWER_DOWN] ∧
      fsm_run results fuel fsm_init = ⟨STOP, 0, 7, false⟩ := by
  have hr : results = fun _ => 0 := funext h
  subst hr
  intro fuel hfuel
  obtain ⟨k, rfl⟩ := Nat.exists_eq_add_of_le hfuel
  have hrun : fsm_run (fun _ => 0) 7 fsm_init = ⟨STOP, 0, 7, false⟩ := by decide
  have hhalt : fsm_halted (⟨STOP, 0, 7, false⟩ : FsmSt) = true := by decide
  constructor
  · rw [fsm_dispatches_add, hrun, fsm_dispatches_halted _ _ _ hhalt, List.append_nil]
    decide
  · rw [fsm_run_add, hrun, fsm_run_halted _ _ _ hhalt]

/-- Witness for C7 at the concrete all-success handler assignment. -/
theorem server_update_all_success_witness :
    fsm_dispatches (fun _ => 0) 7 fsm_init =
      [WIFI_INIT, READ_TIME, OPEN_CONNECTION, SEND_DATA, RECEIVE_DATA,
        CLOSE_CONNECTION, POWER_DOWN] ∧
    fsm_run (fun _ => 0) 7 fsm_init = ⟨STOP, 0, 7, false⟩ :=
  server_update_all_success (fun _ => 0) (fun _ => rfl) 7 (by decide)

/-- C1 counterexample: for the handler assignment in which every handler
invocation fails, `server_update` executes 6 handler invocations — all
failures — before stopping, not `MAX_RETRIES = 5` as the claim states: the
retry budget is compared with `MAXIMUM_RETRIES` only *after* the handler has
run, so a sixth failing handler executes while `retries` is already `5`. -/
theorem server_update_all_fail_counterexample :
    fsm_run (fun _ => -1) 10 fsm_init = ⟨POWER_DOWN, MAX_RETRIES, 6, true⟩ ∧
    (fsm_dispatches (fun _ => -1) 10 fsm_init).length = 6 ∧
    ¬ (fsm_dispatches (fun _ => -1) 10 fsm_init).length = MAX_RETRIES := by
  decide

/-- C1 (amended): the retry budget is compared with the maximum after each
handler execution (before the transition is applied) and incremented on every
handler failure regardless of state; for a handler assignment in which every
invocation fails, the run starting from `ConnectWifi` terminates after
exactly `MAXIMUM_RETRIES + 1 = 6` total handler failures (dispatching
`ConnectWifi` and `PowerDown` alternately) with the counter equal to
`MAXIMUM_RETRIES`, and never reaches `Stop`. -/
theorem server_update_all_fail (results : Nat → Int) (h : ∀ i, results i = -1) :
    (∀ fuel, 6 ≤ fuel →
      fsm_run results fuel fsm_init =
        ⟨POWER_DOWN, MAXIMUM_RETRIES, MAXIMUM_RETRIES + 1, true⟩ ∧
      fsm_dispatches results fuel fsm_init =
        [WIFI_INIT, POWER_DOWN, WIFI_INIT, POWER_DOWN, WIFI_INIT, POWER_DOWN]) ∧
    (∀ fuel, (fsm_run results fuel fsm_init).current_state ≠ STOP) := by
  have hr : results = fun _ => -1 := funext h
  subst hr
  constructor
  · intro fuel hfuel
    obtain ⟨k, rfl⟩ := Nat.exists_eq_add_of_le hfuel
    have hrun : fsm_run (fun _ => -1) 6 fsm_init =
        ⟨POWER_DOWN, MAXIMUM_RETRIES, MAXIMUM_RETRIES + 1, true⟩ := by decide
    have hhalt :
        fsm_halted (⟨POWER_DOWN, MAXIMUM_RETRIES, MAXIMUM_RETRIES + 1, true⟩ : FsmSt) = true := by
      decide
    constructor
    · rw [fsm_run_add, hrun, fsm_run_halted _ _ _ hhalt]
    · rw [fsm_dispatches_add, hrun, fsm_dispatches_halted _ _ _ hhalt, List.append_nil]
      decide
  · intro fuel
    have := fsm_run_all_fail_state fuel fsm_init (Or.inl rfl)
    rcases this with h0 | h6
    · simp [h0, STOP, WIFI_INIT]
    · simp [h6, STOP, POWER_DOWN]

/-- Witness for the amended C1 at the concrete all-fail handler assignment. -/
theorem server_update_all_fail_witness :
    fsm_run (fun _ => -1) 6 fsm_init =
      ⟨POWER_DOWN, MAXIMUM_RETRIES, MAXIMUM_RETRIES + 1, true⟩ ∧
    (fsm_run (fun _ => -1) 20 fsm_init).current_state ≠ STOP :=
  ⟨((server_update_all_fail (fun _ => -1) (fun _ => rfl)).1 6 (by decide)).1,
    (server_update_all_fail (fun _ => -1) (fun _ => rfl)).2 20⟩

/-- C10: in every iteration of the `server_update` loop, for any handler
results whatsoever, the state used to index `state_table` is one of the seven
non-terminal states `0..6`; the terminal `Stop` state (value 7) is never used
to look up a handler. -/
theorem server_update_dispatch_in_table (results : Nat → Int) (fuel : Nat)
    (c : Nat) (hc : c ∈ fsm_dispatches results fuel fsm_init) : c < 7 :=
  fsm_dispatches_lt results fuel fsm_init (by decide) c hc

/-- Witness for C10 on a concrete one-step run. -/
theorem server_update_dispatch_in_table_witness :
    WIFI_INIT ∈ fsm_dispatches (fun _ => 0) 1 fsm_init ∧ WIFI_INIT < 7 :=
  ⟨by decide, server_update_dispatch_in_table (fun _ => 0) 1 WIFI_INIT (by decide)⟩

/-- C3 counterexample: a main cycle in which every workflow handler succeeds
but arming the wake-up alarm fails (the `ALRAWF` writable-window wait times
out, so `RTC_set_alarm` returns `-1`): the workflow nevertheless terminates
in `Stop` with `retries = 0` after the usual seven dispatches — the PowerDown
handler did not fail and the machine never looped back to `ConnectWifi`, so
the alarm failure is discarded rather than propagated. -/
theorem power_down_alarm_counterexample :
    (main_cycle (fun _ => 0) 7 false 0 0 0).alarm.status = -1 ∧
    (main_cycle (fun _ => 0) 7 false 0 0 0).fsm.current_state = STOP ∧
    (main_cycle (fun _ => 0) 7 false 0 0 0).fsm.retries = 0 ∧
    fsm_dispatches (fun _ => 0) 7 fsm_init =
      [WIFI_INIT, READ_TIME, OPEN_CONNECTION, SEND_DATA, RECEIVE_DATA,
        CLOSE_CONNECTION, POWER_DOWN] := by
  decide

/-- C3 (amended): `RTC_set_alarm` is invoked by `main` only after
`server_update` has returned, and its result is discarded — the workflow
outcome is independent of whether arming the alarm succeeds.  Only a failure
of the `WiFi_power_down()` transaction makes the `PowerDown` handler fail,
and that failure transitions the workflow from `PowerDown` back to
`ConnectWifi`. -/
theorem power_down_alarm_independence :
    (∀ (results : Nat → Int) (fuel : Nat) (r r' : Bool) (bh bm bs bh' bm' bs' : Nat),
      (main_cycle results fuel r bh bm bs).fsm = (main_cycle results fuel r' bh' bm' bs').fsm) ∧
    (∀ w : Int, w ≠ 0 → FSM_power_down w = -1) ∧
    (state_table.getD POWER_DOWN ⟨0, 0⟩).next_state_on_failure = WIFI_INIT := by
  refine ⟨fun _ _ _ _ _ _ _ _ _ _ => rfl, fun w hw => ?_, by decide⟩
  simp [FSM_power_down, hw]

/-- Witness for the amended C3 at a concrete failing `WiFi_power_down`
result. -/
theorem power_down_alarm_independence_witness :
    (main_cycle (fun _ => 0) 7 false 0 0 0).fsm = (main_cycle (fun _ => 0) 7 true 1 2 3).fsm ∧
    FSM_power_down 2 = -1 :=
  ⟨power_down_alarm_independence.1 (fun _ => 0) 7 false true 0 0 0 1 2 3,
    power_down_alarm_independence.2.1 2 (by decide)⟩

/-! ### Lemmas about the wake scheduler -/

/-- For a valid current time and a delay below one day, the carry-propagation
code of `RTC_set_alarm` computes exactly the decomposition of
`(current in seconds + delay) mod 86400`: the `uint8_t` truncations never
fire (all intermediate sums stay below 256) and one conditional subtraction
per unit suffices. -/
lemma next_alarm_eq (h m s d : Nat) (hh : h ≤ 23) (hm : m ≤ 59) (hs : s ≤ 59)
    (hd : d < 86400) :
    next_alarm h m s d =
      ((h * 3600 + m * 60 + s + d) % 86400 / 3600,
       (h * 3600 + m * 60 + s + d) % 86400 % 3600 / 60,
       (h * 3600 + m * 60 + s + d) % 86400 % 60) := by
  simp only [next_alarm]
  rw [Nat.mod_eq_of_lt (show s + d % 60 < 256 by omega),
    Nat.mod_eq_of_lt (show m + d % 3600 / 60 < 256 by omega),
    Nat.mod_eq_of_lt (show h + d / 3600 < 256 by omega),
    Nat.mod_eq_of_lt (show m + d % 3600 / 60 + 1 < 256 by omega),
    Nat.mod_eq_of_lt (show h + d / 3600 + 1 < 256 by omega)]
  split_ifs <;> simp only [Prod.mk.injEq] <;> omega

/-- C4: for every valid current time (hour 0-23, minute 0-59, second 0-59)
and delay `0 ≤ d < 86400`, the time computation of `RTC_set_alarm` yields an
hour in 0-23, a minute in 0-59 and a second in 0-59; for `d = 0` the target
equals the current time; and for current time 23:59:59 with `d = 2` the
target is 00:00:01 (the hour wraps past midnight, no date change). -/
theorem next_alarm_valid (h m s d : Nat) (hh : h ≤ 23) (hm : m ≤ 59) (hs : s ≤ 59)
    (hd : d < 86400) :
    ((next_alarm h m s d).1 ≤ 23 ∧ (next_alarm h m s d).2.1 ≤ 59 ∧
      (next_alarm h m s d).2.2 ≤ 59) ∧
    next_alarm h m s 0 = (h, m, s) ∧
    next_alarm 23 59 59 2 = (0, 0, 1) := by
  refine ⟨?_, ?_, by decide⟩
  · rw [next_alarm_eq h m s d hh hm hs hd]
    dsimp only
    refine ⟨?_, ?_, ?_⟩ <;> omega
  · rw [next_alarm_eq h m s 0 hh hm hs (by omega)]
    simp only [Prod.mk.injEq]
    omega

/-- Witness for C4 at time 10:20:30 with `d = 7000`. -/
theorem next_alarm_valid_witness :
    ((next_alarm 10 20 30 7000).1 ≤ 23 ∧ (next_alarm 10 20 30 7000).2.1 ≤ 59 ∧
      (next_alarm 10 20 30 7000).2.2 ≤ 59) ∧
    next_alarm 10 20 30 0 = (10, 20, 30) ∧
    next_alarm 23 59 59 2 = (0, 0, 1) :=
  next_alarm_valid 10 20 30 7000 (by decide) (by decide) (by decide) (by decide)

/-- C5 counterexample: additivity fails for delays of a day or more.  With
`T1 = 00:00:00`, `d1 = 259200` (72 h) and `d2 = 0`, the first application
leaves the hour at 24 (the single `-= 24` wraps 72 h only once, to 48, then
the outer hour field is 48 and one more application subtracts only one more
24), so the composite gives 24:00:00 while the combined delay
`(d1 + d2) % 86400 = 0` gives 00:00:00. -/
theorem next_alarm_additivity_counterexample :
    next_alarm_hms (next_alarm_hms (0, 0, 0) 259200) 0 ≠
      next_alarm_hms (0, 0, 0) ((259200 + 0) % 86400) := by
  decide

/-- C5 (amended): for every valid current time and delays `d1, d2` both below
one day (86400 s), applying the wake scheduler's time computation twice
equals applying it once with the combined delay reduced modulo one day. -/
theorem next_alarm_additivity (h m s d1 d2 : Nat) (hh : h ≤ 23) (hm : m ≤ 59)
    (hs : s ≤ 59) (hd1 : d1 < 86400) (hd2 : d2 < 86400) :
    next_alarm_hms (next_alarm_hms (h, m, s) d1) d2 =
      next_alarm_hms (h, m, s) ((d1 + d2) % 86400) := by
  simp only [next_alarm_hms]
  rw [next_alarm_eq h m s d1 hh hm hs hd1]
  dsimp only
  rw [next_alarm_eq ((h * 3600 + m * 60 + s + d1) % 86400 / 3600)
        ((h * 3600 + m * 60 + s + d1) % 86400 % 3600 / 60)
        ((h * 3600 + m * 60 + s + d1) % 86400 % 60) d2
        (by omega) (by omega) (by omega) hd2,
    next_alarm_eq h m s ((d1 + d2) % 86400) hh hm hs (by omega)]
  simp only [Prod.mk.injEq]
  omega

/-- Witness for the amended C5 at time 23:59:59 with `d1 = 2`, `d2 = 86399`. -/
theorem next_alarm_additivity_witness :
    next_alarm_hms (next_alarm_hms (23, 59, 59) 2) 86399 =
      next_alarm_hms (23, 59, 59) ((2 + 86399) % 86400) :=
  next_alarm_additivity 23 59 59 2 86399 (by decide) (by decide) (by decide)
    (by decide) (by decide)

/-! ### Lemmas about the transaction engine -/

lemma send_command_loop_response (exp_end : List Char) (delay start : Nat)
    (ticks : Nat → Nat) (bufs : Nat → List Char) :
    ∀ fuel i j r, send_command_loop exp_end delay start ticks bufs fuel i = some (j, r) →
      r = WIFI_OK ∨ r = WIFI_TIMEOUT := by
  intro fuel
  induction fuel with
  | zero => intro i j r h; simp [send_command_loop] at h
  | succ fuel ih =>
    intro i j r h
    rw [send_command_loop] at h
    split_ifs at h
    · exact Or.inr (by cases h; rfl)
    · exact Or.inl (by cases h; rfl)
    · exact ih (i + 1) j r h

/-- The polling loop stops at the first iteration `j` at which the elapsed
tick count reaches the timeout, with result `WIFI_TIMEOUT`, provided the
terminal token never occurs in the scanned buffer. -/
lemma send_command_loop_timeout (exp_end : List Char) (delay start : Nat)
    (ticks : Nat → Nat) (bufs : Nat → List Char) (j : Nat)
    (hnotok : ∀ i, strstr_idx (bufs i) exp_end = none)
    (hj : delay ≤ ticks j - start)
    (hmin : ∀ k, k < j → ticks k - start < delay) :
    ∀ fuel i, i ≤ j → j - i < fuel →
      send_command_loop exp_end delay start ticks bufs fuel i = some (j, WIFI_TIMEOUT) := by
  intro fuel
  induction fuel with
  | zero => intro i _ hfuel; omega
  | succ fuel ih =>
    intro i hij hfuel
    rw [send_command_loop]
    by_cases htime : delay ≤ ticks i - start
    · have hieq : i = j := by
        by_contra hne
        exact absurd htime (Nat.not_le.mpr (hmin i (Nat.lt_of_le_of_ne hij hne)))
      rw [if_pos htime, hieq]
    · rw [if_neg htime]
      have hine : i ≠ j := fun hcontra => htime (hcontra ▸ hj)
      rw [hnotok i]
      simp only [Option.isSome_none, Bool.false_eq_true, if_false]
      exact ih (i + 1) (by omega) (by omega)

/-- If the terminal token is visible in the scanned buffer at iteration `i`
with the elapsed time still below the timeout, the polling loop (whose ticks
are monotone in the iteration count) stops with `WIFI_OK` at some iteration
`≤ i`, at which the token is present. -/
lemma send_command_loop_ok (exp_end : List Char) (delay start : Nat)
    (ticks : Nat → Nat) (bufs : Nat → List Char) (i : Nat)
    (hmono : ∀ a b, a ≤ b → ticks a ≤ ticks b)
    (hfound : (strstr_idx (bufs i) exp_end).isSome)
    (hintime : ticks i - start < delay) :
    ∀ fuel i0, i0 ≤ i → i - i0 < fuel →
      ∃ j, i0 ≤ j ∧ j ≤ i ∧ (strstr_idx (bufs j) exp_end).isSome ∧
        send_command_loop exp_end delay start ticks bufs fuel i0 = some (j, WIFI_OK) := by
  intro fuel
  induction fuel with
  | zero => intro i0 _ hfuel; omega
  | succ fuel ih =>
    intro i0 hi0 hfuel
    have htime : ¬ delay ≤ ticks i0 - start := by
      have : ticks i0 - start ≤ ticks i - start :=
        Nat.sub_le_sub_right (hmono i0 i hi0) start
      omega
    rw [send_command_loop, if_neg htime]
    by_cases hfind : (strstr_idx (bufs i0) exp_end).isSome
    · exact ⟨i0, Nat.le_refl i0, hi0, hfind, by rw [if_pos hfind]⟩
    · have hine : i0 ≠ i := fun hcontra => hfind (hcontra ▸ hfound)
      rw [if_neg hfind]
      obtain ⟨j, hj1, hj2, hj3, hj4⟩ := ih (i0 + 1) (by omega) (by omega)
      exact ⟨j, by omega, hj2, hj3, hj4⟩

/-- Unfolding `send_command` once the polling loop's outcome is known. -/
lemma send_command_of_loop (exp : Option (List Char)) (has_exp_parse : Bool)
    (exp_end : List Char) (num_of_exp delay : Nat) (vsscanf_slots : List Char → Nat)
    (start : Nat) (ticks : Nat → Nat) (bufs : Nat → List Char) (fuel j : Nat) (r : Int)
    (h : send_command_loop exp_end delay start ticks bufs fuel 0 = some (j, r)) :
    send_command exp has_exp_parse exp_end num_of_exp delay vsscanf_slots
        start ticks bufs fuel =
      if r = WIFI_OK then
        some ⟨WIFI_OK, parse_slots exp has_exp_parse vsscanf_slots (bufs j), j⟩
      else some ⟨r, 0, j⟩ := by
  rw [send_command, h]

/-! ### Claims about the transaction engine -/

/-- C6: if the terminal token never appears in the receive buffer,
`send_command` returns `WIFI_TIMEOUT` at the first polling iteration `j` at
which the elapsed tick count since the start of the transaction reaches the
configured timeout — it stops at `j` and never polls past that bound (and no
output slot is written). -/
theorem send_command_timeout (exp : Option (List Char)) (has_exp_parse : Bool)
    (exp_end : List Char) (num_of_exp delay : Nat) (vsscanf_slots : List Char → Nat)
    (start : Nat) (ticks : Nat → Nat) (bufs : Nat → List Char) (j : Nat)
    (hnotok : ∀ i, strstr_idx (bufs i) exp_end = none)
    (hj : delay ≤ ticks j - start)
    (hmin : ∀ k, k < j → ticks k - start < delay) :
    ∀ fuel, j < fuel →
      send_command exp has_exp_parse exp_end num_of_exp delay vsscanf_slots
          start ticks bufs fuel = some ⟨WIFI_TIMEOUT, 0, j⟩ := by
  intro fuel hfuel
  have hloop := send_command_loop_timeout exp_end delay start ticks bufs j
    hnotok hj hmin fuel 0 (Nat.zero_le j) (by omega)
  rw [send_command, hloop]
  rfl

/-- Witness for C6: an environment with an empty receive buffer and a 1 kHz
tick; the timeout of 3 ticks elapses at iteration 3. -/
theorem send_command_timeout_witness :
    send_command none false ['O', 'K'] 0 3 (fun _ => 0) 0 (fun i => i)
        (fun _ => []) 5 = some ⟨WIFI_TIMEOUT, 0, 3⟩ :=
  send_command_timeout none false ['O', 'K'] 0 3 (fun _ => 0) 0 (fun i => i)
    (fun _ => []) 3 (fun _ => rfl) (by decide)
    (fun k hk => by show k - 0 < 3; omega) 5 (by decide)

/-- C2: whenever the terminal token appears in the receive buffer at a
polling iteration whose elapsed time is still below the timeout (ticks being
monotone), `send_command` returns `WIFI_OK` — for every abstract `vsscanf`
behaviour, i.e. even when field extraction fills fewer than the expected
number of output slots — and if the ack token `exp` is absent from the
captured text, no output slot is written (`slots = 0`), so parse failure is
observable only through unchanged output slots. -/
theorem send_command_ok_on_token (exp : Option (List Char)) (has_exp_parse : Bool)
    (exp_end : List Char) (num_of_exp delay : Nat) (vsscanf_slots : List Char → Nat)
    (start : Nat) (ticks : Nat → Nat) (bufs : Nat → List Char) (i : Nat)
    (hmono : ∀ a b, a ≤ b → ticks a ≤ ticks b)
    (hfound : (strstr_idx (bufs i) exp_end).isSome)
    (hintime : ticks i - start < delay) :
    ∀ fuel, i < fuel → ∃ res : SendResult,
      send_command exp has_exp_parse exp_end num_of_exp delay vsscanf_slots
          start ticks bufs fuel = some res ∧
      res.response = WIFI_OK ∧ res.iters ≤ i ∧
      (∀ e, exp = some e → strstr_idx (bufs res.iters) e = none → res.slots = 0) := by
  intro fuel hfuel
  obtain ⟨j, _, hji, _, hloop⟩ := send_command_loop_ok exp_end delay start ticks bufs i
    hmono hfound hintime fuel 0 (Nat.zero_le i) (by omega)
  refine ⟨⟨WIFI_OK, parse_slots exp has_exp_parse vsscanf_slots (bufs j), j⟩, ?_, rfl,
    hji, ?_⟩
  · rw [send_command_of_loop exp has_exp_parse exp_end num_of_exp delay vsscanf_slots
      start ticks bufs fuel j WIFI_OK hloop, if_pos rfl]
  · intro e he hnone
    cases has_exp_parse with
    | false => cases exp <;> rfl
    | true =>
      subst he
      simp [parse_slots, hnone]

/-- Witness for C2: buffer preloaded with `"+X:1 OK"`, terminal token `"OK"`
present at iteration 0 well inside the 5-tick timeout, ack token `"+Z:"`
absent, a `vsscanf` abstraction that would fill one slot if it were ever
reached. -/
theorem send_command_ok_on_token_witness :
    ∃ res : SendResult,
      send_command (some ['+', 'Z', ':']) true ['O', 'K'] 1 5 (fun _ => 1) 0
          (fun i => i) (fun _ => ['+', 'X', ':', '1', ' ', 'O', 'K']) 1 = some res ∧
      res.response = WIFI_OK ∧ res.iters ≤ 0 ∧
      (∀ e, (some ['+', 'Z', ':'] : Option (List Char)) = some e →
        strstr_idx ((fun _ => ['+', 'X', ':', '1', ' ', 'O', 'K']) res.iters) e = none →
        res.slots = 0) :=
  send_command_ok_on_token (some ['+', 'Z', ':']) true ['O', 'K'] 1 5 (fun _ => 1) 0
    (fun i => i) (fun _ => ['+', 'X', ':', '1', ' ', 'O', 'K']) 0
    (fun a b h => h) (by decide) (by decide) 1 (by decide)

/-- C9: `send_command` only ever returns `WIFI_OK` or `WIFI_TIMEOUT` — the
`WIFI_FAIL` value of the three-valued result type is unreachable from the
transaction engine itself, for every command, token, timeout, tick source and
buffer content; it is produced only by wrappers such as `WiFi_check`, which
collapses every non-`WIFI_OK` result to `WIFI_FAIL`. -/
theorem send_command_never_fail (exp : Option (List Char)) (has_exp_parse : Bool)
    (exp_end : List Char) (num_of_exp delay : Nat) (vsscanf_slots : List Char → Nat)
    (start : Nat) (ticks : Nat → Nat) (bufs : Nat → List Char) (fuel : Nat) :
    (∀ res : SendResult,
      send_command exp has_exp_parse exp_end num_of_exp delay vsscanf_slots
          start ticks bufs fuel = some res →
      (res.response = WIFI_OK ∨ res.response = WIFI_TIMEOUT) ∧ res.response ≠ WIFI_FAIL) ∧
    (∀ r : Int, r ≠ WIFI_OK → WiFi_check_res r = WIFI_FAIL) ∧
    WiFi_check_res WIFI_OK = WIFI_OK := by
  refine ⟨?_, fun r hr => by simp [WiFi_check_res, hr], by decide⟩
  intro res hres
  rcases hloop : send_command_loop exp_end delay start ticks bufs fuel 0 with _ | ⟨j, r⟩
  · rw [send_command, hloop] at hres
    exact Option.noConfusion hres
  · rw [send_command_of_loop exp has_exp_parse exp_end num_of_exp delay vsscanf_slots
      start ticks bufs fuel j r hloop] at hres
    have hr := send_command_loop_response exp_end delay start ticks bufs fuel 0 j r hloop
    by_cases hok : r = WIFI_OK
    · rw [if_pos hok] at hres
      cases hres
      exact ⟨Or.inl rfl, by simp [WIFI_OK, WIFI_FAIL]⟩
    · rw [if_neg hok] at hres
      cases hres
      rcases hr with h | h
      · exact absurd h hok
      · exact ⟨Or.inr h, by simp [h, WIFI_TIMEOUT, WIFI_FAIL]⟩

/-- Witness for C9 on a concrete timed-out transaction. -/
theorem send_command_never_fail_witness :
    ((⟨WIFI_TIMEOUT, 0, 0⟩ : SendResult).response = WIFI_OK ∨
      (⟨WIFI_TIMEOUT, 0, 0⟩ : SendResult).response = WIFI_TIMEOUT) ∧
    (⟨WIFI_TIMEOUT, 0, 0⟩ : SendResult).response ≠ WIFI_FAIL :=
  (send_command_never_fail none false ['O', 'K'] 0 0 (fun _ => 0) 0 (fun _ => 0)
    (fun _ => []) 1).1 ⟨WIFI_TIMEOUT, 0, 0⟩ (by decide)

/-! ### Lemmas about the receive ring buffer -/

lemma getD_append_left (ys zs : List Nat) :
    ∀ p, p < ys.length → (ys ++ zs).getD p 0 = ys.getD p 0 := by
  induction ys with
  | nil => intro p h; simp at h
  | cons a ys ih =>
    intro p h
    cases p with
    | zero => rfl
    | succ p =>
      simp only [List.cons_append, List.getD_cons_succ]
      exact ih p (by simpa using h)

lemma getD_concat_self (ys : List Nat) (b : Nat) :
    (ys ++ [b]).getD ys.length 0 = b := by
  induction ys with
  | nil => rfl
  | cons a ys ih =>
    simpa only [List.cons_append, List.length_cons, List.getD_cons_succ] using ih

lemma push_bytes_append (cap : Nat) (bs : List Nat) (b : Nat) (s : RxBuf) :
    push_bytes cap (bs ++ [b]) s = push_byte cap b (push_bytes cap bs s) := by
  simp [push_bytes, List.foldl_append]

lemma push_bytes_cons (cap : Nat) (b : Nat) (bs : List Nat) (s : RxBuf) :
    push_bytes cap (b :: bs) s = push_bytes cap bs (push_byte cap b s) := rfl

lemma push_bytes_idx (cap : Nat) :
    ∀ (bs : List Nat) (s : RxBuf), s.idx < cap →
      (push_bytes cap bs s).idx = (s.idx + bs.length) % cap := by
  intro bs
  induction bs with
  | nil =>
    intro s h
    show s.idx = (s.idx + 0) % cap
    rw [Nat.add_zero, Nat.mod_eq_of_lt h]
  | cons b bs ih =>
    intro s h
    rw [push_bytes_cons, ih (push_byte cap b s) (Nat.mod_lt _ (by omega))]
    simp only [push_byte, List.length_cons]
    rw [Nat.mod_add_mod]
    congr 1
    omega

/-- Filling an initially cleared buffer with at most `cap` bytes writes them
at consecutive positions, without wraparound. -/
lemma push_bytes_fill (cap : Nat) :
    ∀ bs : List Nat, bs.length ≤ cap →
      ∀ p, (push_bytes cap bs rxbuf_cleared).data p =
        if p < bs.length then bs.getD p 0 else 0 := by
  intro bs
  induction bs using List.reverseRecOn with
  | nil => intro _ p; simp [push_bytes, rxbuf_cleared]
  | append_singleton ys b ih =>
    intro h p
    have hlen : ys.length + 1 ≤ cap := by simpa using h
    have hidx : (push_bytes cap ys rxbuf_cleared).idx = ys.length := by
      rw [push_bytes_idx cap ys rxbuf_cleared (by show 0 < cap; omega)]
      show (0 + ys.length) % cap = ys.length
      rw [Nat.zero_add, Nat.mod_eq_of_lt (by omega)]
    rw [push_bytes_append]
    simp only [push_byte, hidx, List.length_append, List.length_singleton]
    by_cases hp : p = ys.length
    · rw [if_pos hp, if_pos (by omega), hp, getD_concat_self]
    · rw [if_neg hp, ih (by omega) p]
      by_cases hlt : p < ys.length
      · rw [if_pos hlt, if_pos (by omega), getD_append_left ys [b] p hlt]
      · rw [if_neg hlt, if_neg (by omega)]

/-- After pushing at least `cap` bytes into an initially cleared buffer, the
position `t` slots past the final cursor (mod `cap`) holds the `t`-th oldest
of the most recent `cap` bytes pushed. -/
lemma push_bytes_ring (cap : Nat) (hcap : 0 < cap) :
    ∀ bs : List Nat, cap ≤ bs.length → ∀ t, t < cap →
      (push_bytes cap bs rxbuf_cleared).data ((bs.length % cap + t) % cap) =
        bs.getD (bs.length - cap + t) 0 := by
  intro bs
  induction bs using List.reverseRecOn with
  | nil => intro h; exact absurd h (by simp; omega)
  | append_singleton ys b ih =>
    intro h t ht
    have hlen : cap ≤ ys.length + 1 := by simpa using h
    have hidx : (push_bytes cap ys rxbuf_cleared).idx = ys.length % cap := by
      rw [push_bytes_idx cap ys rxbuf_cleared (by show 0 < cap; omega)]
      show (0 + ys.length) % cap = ys.length % cap
      rw [Nat.zero_add]
    rw [push_bytes_append]
    simp only [push_byte, hidx, List.length_append, List.length_singleton]
    by_cases hlast : t = cap - 1
    · have hQ : ((ys.length + 1) % cap + t) % cap = ys.length % cap := by
        rw [Nat.mod_add_mod]
        have harg : ys.length + 1 + t = ys.length + cap := by omega
        rw [harg, Nat.add_mod_right]
      rw [hQ, if_pos rfl]
      have harg2 : ys.length + 1 - cap + t = ys.length := by omega
      rw [harg2, getD_concat_self]
    · have hQne : ((ys.length + 1) % cap + t) % cap ≠ ys.length % cap := by
        rw [Nat.mod_add_mod]
        intro hcontra
        have hme : Nat.ModEq cap (ys.length + (t + 1)) (ys.length + 0) := by
          unfold Nat.ModEq
          have harg : ys.length + (t + 1) = ys.length + 1 + t := by omega
          rw [harg, Nat.add_zero]
          exact hcontra
        have hcancel := Nat.ModEq.add_left_cancel' ys.length hme
        unfold Nat.ModEq at hcancel
        rw [Nat.zero_mod, Nat.mod_eq_of_lt (by omega : t + 1 < cap)] at hcancel
        omega
      rw [if_neg hQne]
      by_cases hm : cap ≤ ys.length
      · have iht := ih hm (t + 1) (by omega)
        have hQ2 : ((ys.length + 1) % cap + t) % cap =
            (ys.length % cap + (t + 1)) % cap := by
          rw [Nat.mod_add_mod, Nat.mod_add_mod]
          congr 1
          omega
        rw [hQ2, iht]
        have harg : ys.length + 1 - cap + t = ys.length - cap + (t + 1) := by omega
        rw [harg, getD_append_left ys [b] _ (by omega)]
      · have hcm : cap = ys.length + 1 := by omega
        have hQ3 : ((ys.length + 1) % cap + t) % cap = t := by
          rw [hcm, Nat.mod_self, Nat.zero_add, Nat.mod_eq_of_lt (by omega)]
        rw [hQ3, push_bytes_fill cap ys (by omega) t, if_pos (by omega)]
        have harg : ys.length + 1 - cap + t = t := by omega
        rw [harg, getD_append_left ys [b] t (by omega)]

/-! ### Claim about the receive ring buffer -/

/-- C8: for every byte sequence delivered to `USART1_IRQHandler`, the write
cursor stays strictly below the buffer capacity (each push stores at the
cursor, in bounds, and advances it modulo the capacity); and after pushing
`n ≥ cap` bytes into an initially cleared buffer, the contents equal the most
recent `cap` bytes pushed, laid out in wraparound order starting at the
cursor (offset `t` past the cursor holds the `t`-th oldest of those bytes). -/
theorem usart1_rx_ring_buffer (cap : Nat) (hcap : 0 < cap) :
    (∀ bs : List Nat, (push_bytes cap bs rxbuf_cleared).idx < cap) ∧
    (∀ bs : List Nat, cap ≤ bs.length → ∀ t, t < cap →
      (push_bytes cap bs rxbuf_cleared).data
          (((push_bytes cap bs rxbuf_cleared).idx + t) % cap) =
        bs.getD (bs.length - cap + t) 0) := by
  constructor
  · intro bs
    rw [push_bytes_idx cap bs rxbuf_cleared hcap]
    exact Nat.mod_lt _ hcap
  · intro bs h t ht
    rw [push_bytes_idx cap bs rxbuf_cleared hcap]
    show (push_bytes cap bs rxbuf_cleared).data (((0 + bs.length) % cap + t) % cap) = _
    rw [Nat.zero_add]
    exact push_bytes_ring cap hcap bs h t ht

/-- Witness for C8: capacity 3, four bytes pushed; the cursor is `4 % 3 = 1`
and offset 1 past it holds the middle of the last three bytes. -/
theorem usart1_rx_ring_buffer_witness :
    (push_bytes 3 [10, 20, 30, 40] rxbuf_cleared).idx < 3 ∧
    (push_bytes 3 [10, 20, 30, 40] rxbuf_cleared).data
        (((push_bytes 3 [10, 20, 30, 40] rxbuf_cleared).idx + 1) % 3) =
      [10, 20, 30, 40].getD ([10, 20, 30, 40].length - 3 + 1) 0 :=
  ⟨(usart1_rx_ring_buffer 3 (by decide)).1 [10, 20, 30, 40],
    (usart1_rx_ring_buffer 3 (by decide)).2 [10, 20, 30, 40] (by decide) 1 (by decide)⟩

end WifiDriver
